import Mathlib

/-!
Verification development for the nomad-parser-xps repository.

The definitions below are a shallow embedding of `src/xpsparser/xpsparser.py`
(the canonical implementation named by the claims).  Python strings become
`String`, Python dicts (which preserve insertion order and update keys in
place) become association lists, and places where the Python code would raise
an exception are reified as `Except XPSError`.  Numeric data tokens are kept
as their source strings: the source maps each token through
`round(float(token), 3)`, a per-token conversion that preserves the length of
every row and is irrelevant to all properties stated below.

Input lines are modelled without their trailing newline character.  In the
source every loaded line ends in a newline (lines are produced by iterating
over the open file), so a "blank" line is the string containing only the
newline; its first character is never the comment marker, matching the model
where `startsWithHash "" = false`.
-/

namespace XPS

/-- Python `s.strip(chars)` on a list of characters: remove matching
characters from both ends. -/
def pyStripOuterList (p : Char → Bool) (cs : List Char) : List Char :=
  ((cs.dropWhile p).reverse.dropWhile p).reverse

/-- Python `s.strip(chars)`: remove the characters satisfying `p` from both
ends of the string. -/
def pyStripChars (p : Char → Bool) (s : String) : String :=
  String.mk (pyStripOuterList p s.data)

/-- Python `s.strip()`: trim whitespace from both ends. -/
def pyStrip (s : String) : String := pyStripChars Char.isWhitespace s

/-- Python `s.strip('#')`: trim comment-marker characters from both ends. -/
def pyStripHash (s : String) : String := pyStripChars (fun c => c = '#') s

/-- Python `s.strip(',')`: trim commas from both ends. -/
def pyStripComma (s : String) : String := pyStripChars (fun c => c = ',') s

/-- Python `s.lower()` (ASCII, which is all the source compares). -/
def pyLower (s : String) : String := String.mk (s.data.map Char.toLower)

/-- Does the first list start with the second one? -/
def startsWithChars : List Char → List Char → Bool
  | _, [] => true
  | [], _ :: _ => false
  | a :: as, b :: bs => a = b && startsWithChars as bs

/-- Substring occurrence on character lists. -/
def containsChars (hay needle : List Char) : Bool :=
  match hay with
  | [] => startsWithChars [] needle
  | _ :: rest => startsWithChars hay needle || containsChars rest needle

/-- Python `needle in hay` substring test. -/
def strContains (hay needle : String) : Bool :=
  containsChars hay.data needle.data

/-- Python `line[0] == '#'`; in the source every line is non-empty because it
still carries its newline, and a modelled empty line stands for a pure
newline line, whose first character is not the marker. -/
def startsWithHash (s : String) : Bool :=
  match s.data with
  | [] => false
  | c :: _ => c = '#'

/-- Python single-character `split`: always returns one more part than there
are separator occurrences, keeping empty parts. -/
def splitOnCharList (sep : Char) : List Char → List (List Char)
  | [] => [[]]
  | a :: rest =>
    if a = sep then [] :: splitOnCharList sep rest
    else
      match splitOnCharList sep rest with
      | [] => [[a]]
      | h :: t => (a :: h) :: t

/-- Re-join character-list segments with a colon. -/
def joinColon : List (List Char) → List Char
  | [] => []
  | [a] => a
  | a :: b :: rest => a ++ ':' :: joinColon (b :: rest)

/-- Python `s.split(':')`. -/
def pySplitColonAll (s : String) : List String :=
  (splitOnCharList ':' s.data).map String.mk

/-- Python `s.split(':', 1)`: split at the first colon only; the remainder is
re-joined. -/
def pySplitColon1 (s : String) : List String :=
  match splitOnCharList ':' s.data with
  | [] => [s]
  | [a] => [String.mk a]
  | a :: rest => [String.mk a, String.mk (joinColon rest)]

/-- Python `s.split('#')`. -/
def pySplitHashAll (s : String) : List String :=
  (splitOnCharList '#' s.data).map String.mk

/-- Split on a character predicate, keeping empty parts. -/
def splitPredList (p : Char → Bool) : List Char → List (List Char)
  | [] => [[]]
  | a :: rest =>
    if p a then [] :: splitPredList p rest
    else
      match splitPredList p rest with
      | [] => [[a]]
      | h :: t => (a :: h) :: t

/-- Python `s.split()` with no arguments: split on whitespace runs, dropping
empty tokens. -/
def pySplitWs (s : String) : List String :=
  ((splitPredList Char.isWhitespace s.data).filter (fun t => t ≠ [])).map String.mk

/-- Last element of a list with a fallback, by plain structural recursion. -/
def lastD {a : Type} : List a → a → a
  | [], x => x
  | y :: l, _ => lastD l y

/-- A Python dict whose iteration order matters: an insertion-ordered
association list.  `hmInsert` mirrors dict assignment (an existing key keeps
its position and gets the new value; a new key is appended). -/
abbrev HeaderMap := List (String × String)

/-- Dict lookup `m[k]` as an `Option`. -/
def hmFind : HeaderMap → String → Option String
  | [], _ => none
  | (k0, v0) :: rest, k => if k0 = k then some v0 else hmFind rest k

/-- Python `k in m`. -/
def hmHasKey (m : HeaderMap) (k : String) : Bool := (hmFind m k).isSome

/-- Dict assignment `m[k] = v`. -/
def hmInsert : HeaderMap → String → String → HeaderMap
  | [], k, v => [(k, v)]
  | (k0, v0) :: rest, k, v =>
    if k0 = k then (k0, v) :: rest else (k0, v0) :: hmInsert rest k v

/-- Errors of the embedded parser.  `indexError`, `keyError`,
`attributeError` and `unboundLocalError` reify the runtime faults the Python
source would raise at the corresponding program points.  `malformedHeader`
and `orphanExternalChannel` are modelled from the spec: the spec names
`MalformedHeaderError` for the global-header loop running off the end of the
input and `OrphanExternalChannelError` for an external block preceding any
primary block; at exactly those two program points the source raises a bare
IndexError, and the embedding reports the typed error the spec mandates. -/
inductive XPSError where
  | malformedHeader
  | orphanExternalChannel
  | indexError
  | keyError
  | attributeError
  | unboundLocalError
  deriving DecidableEq, Repr

/-- One key/value line of the global header: `temp_line.split(':')`, key from
the first segment, value from the LAST segment (`temp_line[-1]`), both
trimmed (xpsparser.py lines 179-180). -/
def globalHeaderRecord (acc : HeaderMap) (l : String) : HeaderMap :=
  let t := pyStrip (pyStripHash l)
  let parts := pySplitColonAll t
  hmInsert acc (pyStrip (parts.headD "")) (pyStrip (parts.getLastD ""))

/-- Is a line blank after stripping the comment marker and whitespace? -/
def isBlankLine (l : String) : Bool := (pyStrip (pyStripHash l)).length = 0

/-- Loop body of `XPSParser._parseGlobalHeader`: consume lines until the
count of blank lines seen reaches two (the counter is never reset), recording
every non-blank line via `globalHeaderRecord`.  Reading past the end of the
input is the spec's `MalformedHeaderError` (the source raises IndexError
there). -/
def parseGlobalHeaderGo (rest : List String) (empties : Nat) (acc : HeaderMap) :
    Except XPSError (HeaderMap × List String) :=
  if empties ≥ 2 then .ok (acc, rest)
  else
    match rest with
    | [] => .error .malformedHeader
    | l :: rest2 =>
      if isBlankLine l then parseGlobalHeaderGo rest2 (empties + 1) acc
      else parseGlobalHeaderGo rest2 empties (globalHeaderRecord acc l)

/-- Embedding of `XPSParser._parseGlobalHeader`, returning the file-scope header map and
the unconsumed suffix of the input lines. -/
def parseGlobalHeader (lines : List String) : Except XPSError (HeaderMap × List String) :=
  parseGlobalHeaderGo lines 0 []

/-- Embedding of `XPSParser._parseDataHeader`: consume consecutive comment-marker lines,
splitting each on the first colon (`split(':', 1)`, value = re-joined rest,
both parts trimmed).  The loop condition indexes the current line with no
bounds check, so running past the end of the input is an IndexError. -/
def parseDataHeaderGo (rest : List String) (acc : HeaderMap) :
    Except XPSError (HeaderMap × List String) :=
  match rest with
  | [] => .error .indexError
  | l :: rest2 =>
    if startsWithHash l then
      let parts := pySplitColon1 (pyStripHash l)
      parseDataHeaderGo rest2 (hmInsert acc (pyStrip (parts.headD "")) (pyStrip (parts.getLastD "")))
    else .ok (acc, rest)

/-- A data row: the whitespace-separated tokens of one line.  The source
converts each token with `round(float(token), 3)`; the tokens are kept
verbatim here (see the module comment). -/
abbrev Row := List String

/-- Embedding of `XPSParser._parseDataValues`: collect rows while more than one line
remains unconsumed and the current line is not a comment line; blank lines
are consumed but produce no row.  Returns the rows and the unconsumed
suffix. -/
def parseDataValuesGo : List String → List Row × List String
  | l1 :: l2 :: rest =>
    if startsWithHash l1 then ([], l1 :: l2 :: rest)
    else
      let out := parseDataValuesGo (l2 :: rest)
      let toks := pySplitWs l1
      (if toks.isEmpty then out.1 else toks :: out.1, out.2)
  | other => ([], other)

/-- A parsed data block: its header map and its data rows. -/
abbrev Block := HeaderMap × List Row

/-- The block loop of `XPSParser.parse`: while more than one line remains,
parse one data header and one run of data values.  Each iteration consumes at
least one line, so `fuel` initialised to the number of lines never runs
out. -/
def parseBlocksGo (fuel : Nat) (rest : List String) : Except XPSError (List Block) :=
  if rest.length ≤ 1 then .ok []
  else
    match fuel with
    | 0 => .ok []
    | f + 1 => do
      let (hdr, rest2) ← parseDataHeaderGo rest []
      let out := parseDataValuesGo rest2
      let blocks ← parseBlocksGo f out.2
      .ok ((hdr, out.1) :: blocks)

/-- All data blocks of the input after the global header. -/
def parseBlocks (rest : List String) : Except XPSError (List Block) :=
  parseBlocksGo rest.length rest

/-- Global constant `EXTERNAL_CHANNEL_INDICATORS`. -/
def EXTERNAL_CHANNEL_INDICATORS : List String := ["external channel", "External Channel"]

/-- Global constant `GROUP_METADATA_ATTRIBUTE_MAP` (insertion order). -/
def GROUP_METADATA_ATTRIBUTE_MAP : List (String × String) :=
  [("Acquisition Date", "timestamp"),
   ("Dwell Time", "dwell_time"),
   ("Group", "group_name"),
   ("Number of Scans", "n_scans"),
   ("Region", "spectrum_region"),
   ("Excitation Energy", "excitation_energy"),
   ("Values/Curve", "n_values"),
   ("Source", "source_label")]

/-- Global constant `SETTINGS_ATTRIBUTE_MAP` (insertion order). -/
def SETTINGS_ATTRIBUTE_MAP : List (String × String) :=
  [("Analysis Method", "analysis_method"),
   ("Analyzer Lens", "analyzer_lens"),
   ("Analyzer Slit", "analyzer_slit"),
   ("Detector Voltage", "detector_voltage"),
   ("Eff. Workfunction", "workfunction"),
   ("Scan Mode", "scan_mode")]

/-- Global constant `DEFAULT_ENERGY_UNIT`. -/
def DEFAULT_ENERGY_UNIT : String := "eV"

/-- Global constant `KNOWN_CHANNEL_LABELS` (insertion order). -/
def KNOWN_CHANNEL_LABELS : List (String × String) :=
  [("Ring Current", "ring current"),
   ("I_mirror", "mirror current"),
   ("Excitation Energy", "excitation energy"),
   ("TEY", "total electron yield")]

/-- Global constant `KNOWN_CHANNEL_UNITS` (insertion order). -/
def KNOWN_CHANNEL_UNITS : List (String × String) :=
  [("[mA]", "mA"), ("[V]", "V"), ("[eV]", "eV")]

/-- Global constant `KNOWN_DEVICE_NAMES` (insertion order). -/
def KNOWN_DEVICE_NAMES : List (String × String) :=
  [("AMC Mono (TCP)", "monochromator"),
   ("UE56/2-PGM1 (TCP)", "beamline"),
   ("ARMIN-ADC3", "armin"),
   ("Armin10", "armin")]

/-- Global constant `DEFAULT_PRIMARY_DEVICE_NAME`. -/
def DEFAULT_PRIMARY_DEVICE_NAME : String := "Phoibos Hemispherical Analyzer"

/-- Global constant `DEFAULT_AXIS_DEVICE_NAME`. -/
def DEFAULT_AXIS_DEVICE_NAME : String := "HSA 3500 plus"

/-- Global constant `DEFAULT_METHOD_TYPE`. -/
def DEFAULT_METHOD_TYPE : String := "XPS"

/-- Embedding of `XPSParser._checkExternalChannel`: true iff some indicator phrase occurs
in some lower-cased header key. -/
def checkExternalChannel (m : HeaderMap) : Bool :=
  EXTERNAL_CHANNEL_INDICATORS.any (fun ind => m.any (fun kv => strContains (pyLower kv.1) ind))

/-- Append a block to the last open group (Python `spectra_groups[-1] += [data]`).
Only called with a non-empty group list. -/
def appendToLast : List (List Block) → Block → List (List Block)
  | [], _ => []
  | [g], b => [g ++ [b]]
  | g :: g2 :: gs, b => g :: appendToLast (g2 :: gs) b

/-- Loop of `XPSParser._groupSpectra`: a non-external block is tagged
`channel_type = primary` and opens a new group; an external block is tagged
`external` and appended to the last open group.  An external block with no
open group makes Python index an empty list; the spec mandates the typed
`OrphanExternalChannelError` there. -/
def groupSpectraGo : List Block → List (List Block) → Except XPSError (List (List Block))
  | [], acc => .ok acc
  | b :: rest, acc =>
    if checkExternalChannel b.1 then
      match acc with
      | [] => .error .orphanExternalChannel
      | g :: gs => groupSpectraGo rest (appendToLast (g :: gs) (hmInsert b.1 "channel_type" "external", b.2))
    else
      groupSpectraGo rest (acc ++ [[(hmInsert b.1 "channel_type" "primary", b.2)]])

/-- Embedding of `XPSParser._groupSpectra`. -/
def groupSpectra (data : List Block) : Except XPSError (List (List Block)) :=
  groupSpectraGo data []

/-- One entry of the rewritten `data_labels` list
(`{'channel_id': ..., 'label': ..., 'unit': ...}`). -/
structure DataLabel where
  channel_id : Nat := 0
  label : String := ""
  unit : String := ""
  deriving DecidableEq, Repr

/-- The `DeviceSettings` class.  The six mapped settings attributes are set
dynamically by `setattr`, so they are `Option`s; `channel_id` starts as the
empty-string placeholder and is overwritten with the channel number in
`_moveChannelMetaToGlobal`, modelled as an `Option Nat`. -/
structure DeviceSettings where
  device_name : String := ""
  channel_id : Option Nat := none
  analysis_method : Option String := none
  analyzer_lens : Option String := none
  analyzer_slit : Option String := none
  detector_voltage : Option String := none
  workfunction : Option String := none
  scan_mode : Option String := none
  deriving DecidableEq, Repr

/-- The `MetaData` class.  Fields initialised in `__init__` are plain values;
fields only ever created by `setattr` (or by the tag extractor) are `Option`s
whose `none` means "attribute absent". -/
structure MetaData where
  timestamp : String := ""
  dwell_time : String := ""
  n_scans : String := ""
  excitation_energy : String := ""
  method_type : String := ""
  data_labels : List DataLabel := []
  device_settings : List DeviceSettings := []
  spectrum_region : Option String := none
  group_name : Option String := none
  n_values : Option String := none
  source_label : Option String := none
  experiment_parameters : Option (List (String × String)) := none
  deriving DecidableEq, Repr

/-- Python `setattr(metadata, attr, value)` for the attribute names occurring
in `GROUP_METADATA_ATTRIBUTE_MAP`. -/
def setMetaAttr (m : MetaData) (attr : String) (v : String) : MetaData :=
  if attr = "timestamp" then { m with timestamp := v }
  else if attr = "dwell_time" then { m with dwell_time := v }
  else if attr = "group_name" then { m with group_name := some v }
  else if attr = "n_scans" then { m with n_scans := v }
  else if attr = "spectrum_region" then { m with spectrum_region := some v }
  else if attr = "excitation_energy" then { m with excitation_energy := v }
  else if attr = "n_values" then { m with n_values := some v }
  else if attr = "source_label" then { m with source_label := some v }
  else m

/-- Python `setattr(settings, attr, value)` for the attribute names occurring
in `SETTINGS_ATTRIBUTE_MAP`. -/
def setSettingsAttr (s : DeviceSettings) (attr : String) (v : String) : DeviceSettings :=
  if attr = "analysis_method" then { s with analysis_method := some v }
  else if attr = "analyzer_lens" then { s with analyzer_lens := some v }
  else if attr = "analyzer_slit" then { s with analyzer_slit := some v }
  else if attr = "detector_voltage" then { s with detector_voltage := some v }
  else if attr = "workfunction" then { s with workfunction := some v }
  else if attr = "scan_mode" then { s with scan_mode := some v }
  else s

/-- Lookup in a constant attribute table (Python `key in MAP` / `MAP[key]`). -/
def tableFind : List (String × String) → String → Option String
  | [], _ => none
  | (k0, v0) :: rest, k => if k0 = k then some v0 else tableFind rest k

/-- The loop `for key in dictionary: if key in GROUP_METADATA_ATTRIBUTE_MAP:
setattr(metadata, map[key], dictionary[key])` over a header map in its
insertion order. -/
def applyAttrMap (m : MetaData) (hdr : HeaderMap) : MetaData :=
  hdr.foldl (fun acc kv =>
    match tableFind GROUP_METADATA_ATTRIBUTE_MAP kv.1 with
    | some attr => setMetaAttr acc attr kv.2
    | none => acc) m

/-- The analogous loop for `SETTINGS_ATTRIBUTE_MAP`. -/
def applySettingsMap (s : DeviceSettings) (hdr : HeaderMap) : DeviceSettings :=
  hdr.foldl (fun acc kv =>
    match tableFind SETTINGS_ATTRIBUTE_MAP kv.1 with
    | some attr => setSettingsAttr acc attr kv.2
    | none => acc) s

/-- The parser-instance attributes `current_region` and `current_group`.
They are assigned only inside `_getGroupMetaData` and are never initialised
in `__init__` or reset in `parse`, so they persist across parse invocations;
`none` models the attribute not existing yet (reading it is an
AttributeError). -/
structure PState where
  current_region : Option String := none
  current_group : Option String := none
  deriving DecidableEq, Repr

/-- Per-channel part of `XPSParser._getGroupMetaData`: for every channel
whose `channel_type` is `primary`, apply the attribute map, then the
`Region`/`Group` carry-over special cases (a present key updates the running
parser state, an absent one reads it). -/
def groupMetaChannels : PState → MetaData → List Block → Except XPSError (MetaData × PState)
  | s, meta, [] => .ok (meta, s)
  | s, meta, ch :: rest => do
    match hmFind ch.1 "channel_type" with
    | none => .error .keyError
    | some ct =>
      if ct = "primary" then do
        let meta := applyAttrMap meta ch.1
        let (meta, s) ←
          if hmHasKey ch.1 "Region" then
            Except.ok (meta, { s with current_region := hmFind ch.1 "Region" })
          else
            match s.current_region with
            | some r => Except.ok (setMetaAttr meta "spectrum_region" r, s)
            | none => Except.error XPSError.attributeError
        let (meta, s) ←
          if hmHasKey ch.1 "Group" then
            Except.ok (meta, { s with current_group := hmFind ch.1 "Group" })
          else
            match s.current_group with
            | some g => Except.ok (setMetaAttr meta "group_name" g, s)
            | none => Except.error XPSError.attributeError
        groupMetaChannels s meta rest
      else
        groupMetaChannels s meta rest

/-- Embedding of `XPSParser._checkIfNexafs`: NEXAFS is signalled by a `Scan Mode` header
equal to `ConstantFinalState` or a `ColumnLabels` header containing
`Excitation Energy`. -/
def checkIfNexafs (g : List Block) : Bool :=
  g.any (fun ch =>
    (match hmFind ch.1 "Scan Mode" with
     | some v => v = "ConstantFinalState"
     | none => false) ||
    (match hmFind ch.1 "ColumnLabels" with
     | some v => strContains v "Excitation Energy"
     | none => false))

/-- Embedding of `XPSParser._getMethodType`: `NEXAFS` when signalled; otherwise the loop
over the channels rebinds `method_type` on every iteration (the channel's
`Analysis Method` value if present, else the default), so the last channel
decides.  With an empty group the local variable is never bound. -/
def getMethodType (g : List Block) : Except XPSError String :=
  if checkIfNexafs g then .ok "NEXAFS"
  else
    match g with
    | [] => .error .unboundLocalError
    | _ =>
      .ok (g.foldl (fun _ ch =>
        match hmFind ch.1 "Analysis Method" with
        | some v => v
        | none => DEFAULT_METHOD_TYPE) DEFAULT_METHOD_TYPE)

/-- Embedding of `XPSParser._getGroupMetaData`: group-local values (with carry-over),
then file-scope global-header values, then the method type. -/
def getGroupMetaData (gh : HeaderMap) (s : PState) (g : List Block) :
    Except XPSError (MetaData × PState) := do
  let (meta, s2) ← groupMetaChannels s {} g
  let meta := applyAttrMap meta gh
  let mt ← getMethodType g
  .ok ({ meta with method_type := mt }, s2)

/-- Inner loop of `XPSParser._getDeviceName` over `KNOWN_DEVICE_NAMES`: every
iteration rebinds `device_name` (the normalized name on a substring match,
`unknown device` otherwise), so the last table entry decides the result. -/
def deviceNameLookup (v : String) (init : String) : String :=
  KNOWN_DEVICE_NAMES.foldl (fun _ dn =>
    if strContains v dn.1 then dn.2 else "unknown device") init

/-- Embedding of `XPSParser._getDeviceName`: fixed names for the primary and synthetic
axis channels; otherwise scan the header keys for `External Channel` (case
sensitive here) and run `deviceNameLookup` on each matching value.  With no
matching key the local variable is never bound (UnboundLocalError); a missing
`channel_type` key is a KeyError. -/
def getDeviceName (hdr : HeaderMap) : Except XPSError String :=
  match hmFind hdr "channel_type" with
  | none => .error .keyError
  | some ct =>
    if ct = "primary" then .ok DEFAULT_PRIMARY_DEVICE_NAME
    else if ct = "axis" then .ok DEFAULT_AXIS_DEVICE_NAME
    else
      match hdr.foldl (fun (acc : Option String) kv =>
        if strContains kv.1 "External Channel" then some (deviceNameLookup kv.2 (acc.getD ""))
        else acc) none with
      | some d => .ok d
      | none => .error .unboundLocalError

/-- Embedding of `XPSParser._getDeviceSettings`: channel-local settings, then file-scope
settings (file-scope wins), then the device name. -/
def getDeviceSettings (gh : HeaderMap) (hdr : HeaderMap) : Except XPSError DeviceSettings := do
  let s := applySettingsMap {} hdr
  let s := applySettingsMap s gh
  let dn ← getDeviceName hdr
  .ok { s with device_name := dn }

/-- Embedding of `XPSParser._getPrimaryUnit`: unit and label from the file-scope
`Count Rate` header. -/
def getPrimaryUnit (gh : HeaderMap) : String × String :=
  match hmFind gh "Count Rate" with
  | some v =>
    if v = "Counts" then ("counts", "total counts")
    else if v = "Counts per Second" then ("counts per second", "count rate")
    else ("", "")
  | none => ("", "")

/-- Label loop of `XPSParser._getExternalUnit`: first matching entry of
`KNOWN_CHANNEL_LABELS` wins (the loop breaks on a match and writes the
sentinel on every miss). -/
def channelLabelLookup (v : String) : String :=
  match KNOWN_CHANNEL_LABELS.find? (fun kv => strContains v kv.1) with
  | some kv => kv.2
  | none => "unknown data label"

/-- Unit loop of `XPSParser._getExternalUnit`: no break and no miss branch,
so the last matching entry of `KNOWN_CHANNEL_UNITS` wins and a miss keeps the
previous value. -/
def channelUnitLookup (v : String) (init : String) : String :=
  KNOWN_CHANNEL_UNITS.foldl (fun acc kv => if strContains v kv.1 then kv.2 else acc) init

/-- Embedding of `XPSParser._getExternalUnit`: scan the header keys for
`External Channel`; each matching value rewrites the label and folds into the
unit. -/
def getExternalUnit (hdr : HeaderMap) : String × String :=
  hdr.foldl (fun (ul : String × String) kv =>
    if strContains kv.1 "External Channel" then (channelUnitLookup kv.2 ul.1, channelLabelLookup kv.2)
    else ul) ("", "")

/-- Embedding of `XPSParser._getUnit`, returning `(unit, label)`.  A `channel_type` other
than `primary`/`external` leaves both local variables unbound. -/
def getUnit (gh : HeaderMap) (hdr : HeaderMap) : Except XPSError (String × String) :=
  match hmFind hdr "channel_type" with
  | none => .error .keyError
  | some ct =>
    if ct = "primary" then .ok (getPrimaryUnit gh)
    else if ct = "external" then .ok (getExternalUnit hdr)
    else .error .unboundLocalError

/-- The `DataChannel` objects are attribute bags populated dynamically;
`label` and `unit` are `Option`s because the synthetic axis channel can end
up without a label. -/
structure DataChannel where
  label : Option String := none
  unit : Option String := none
  values : List String := []
  channel_id : Nat := 0
  device_settings : DeviceSettings := {}
  deriving DecidableEq, Repr

/-- Embedding of `XPSParser._getValues`: the second entry of every row of the block
(`[v[1] for v in channel[1]]`); a one-token row is an IndexError. -/
def getValues (rows : List Row) : Except XPSError (List String) :=
  rows.mapM (fun r =>
    match r.get? 1 with
    | some v => Except.ok v
    | none => Except.error XPSError.indexError)

/-- Embedding of `XPSParser._getChannelData` for one block of the group. -/
def getChannelData (gh : HeaderMap) (ch : Block) : Except XPSError DataChannel := do
  let ul ← getUnit gh ch.1
  let vals ← getValues ch.2
  let ds ← getDeviceSettings gh ch.1
  .ok { label := some ul.2, unit := some ul.1, values := vals, device_settings := ds }

/-- Embedding of `XPSParser._getXChannel`: label from the NEXAFS check or the file-scope
`Energy Axis` header (otherwise never assigned), unit fixed to the default
energy unit, values from the first entry of every row of the FIRST block of
the group (`group[0]`), device settings for a synthetic axis channel.  The
channel id counter was freshly reset, so the axis channel takes id 0. -/
def getXChannel (gh : HeaderMap) (g : List Block) : Except XPSError DataChannel := do
  let label : Option String :=
    if checkIfNexafs g then some "excitation energy"
    else
      match hmFind gh "Energy Axis" with
      | some v => some v
      | none => none
  match g with
  | [] => .error .indexError
  | b0 :: _ => do
    let vals ← b0.2.mapM (fun r =>
      match r.get? 0 with
      | some v => Except.ok v
      | none => Except.error XPSError.indexError)
    let ds ← getDeviceSettings gh [("channel_type", "axis")]
    .ok { label := label, unit := some DEFAULT_ENERGY_UNIT, values := vals,
          channel_id := 0, device_settings := ds }

/-- Y-channel loop of `XPSParser._addDataChannels`, assigning the running
channel ids. -/
def addChannelsGo (gh : HeaderMap) : List Block → Nat → Except XPSError (List DataChannel)
  | [], _ => .ok []
  | ch :: rest, cid => do
    let dc ← getChannelData gh ch
    let tail ← addChannelsGo gh rest (cid + 1)
    .ok ({ dc with channel_id := cid } :: tail)

/-- Embedding of `XPSParser._addDataChannels`: the axis channel (id 0) followed by one
channel per block of the group (ids 1, 2, ...). -/
def addDataChannels (gh : HeaderMap) (g : List Block) : Except XPSError (List DataChannel) := do
  let x ← getXChannel gh g
  let ys ← addChannelsGo gh g 1
  .ok (x :: ys)

/-- One entry of `self.measurement_data`. -/
structure MeasurementDataRec where
  metadata : MetaData := {}
  data : List DataChannel := []
  deriving DecidableEq, Repr

/-- Per-group body of `XPSParser._putGroupsIntoClasses` (the channel-id
counter reset is reflected in `addDataChannels`). -/
def putGroupIntoClass (gh : HeaderMap) (s : PState) (g : List Block) :
    Except XPSError (MeasurementDataRec × PState) := do
  let (meta, s2) ← getGroupMetaData gh s g
  let chans ← addDataChannels gh g
  .ok ({ metadata := meta, data := chans }, s2)

/-- Embedding of `XPSParser._putGroupsIntoClasses`, threading the parser-instance carry
state through the groups. -/
def putGroupsIntoClasses (gh : HeaderMap) : PState → List (List Block) →
    Except XPSError (List MeasurementDataRec × PState)
  | s, [] => .ok ([], s)
  | s, g :: gs => do
    let (rec1, s2) ← putGroupIntoClass gh s g
    let (recs, s3) ← putGroupsIntoClasses gh s2 gs
    .ok (rec1 :: recs, s3)

/-- A dataset record after `objectToDict` and `_moveChannelMetaToGlobal`:
the channel metadata moved into the group metadata and the data reduced to
the per-channel value arrays. -/
structure Record where
  metadata : MetaData := {}
  data : List (List String) := []
  deriving DecidableEq, Repr

/-- Embedding of `XPSParser._moveChannelMetaToGlobal` for one record: build `data_labels`
and `device_settings` (with the channel id copied in) from the channels and
keep only the value arrays as `data`.  A channel whose `label` or `unit`
attribute was never set is a KeyError on the dictionary produced by
`objectToDict`. -/
def moveChannelMeta (r : MeasurementDataRec) : Except XPSError Record := do
  let entries ← r.data.mapM (fun dc =>
    match dc.label, dc.unit with
    | some l, some u =>
      Except.ok (({ channel_id := dc.channel_id, label := l, unit := u } : DataLabel),
                 { dc.device_settings with channel_id := some dc.channel_id },
                 dc.values)
    | _, _ => Except.error XPSError.keyError)
  .ok { metadata := { r.metadata with
          data_labels := entries.map (fun e => e.1),
          device_settings := entries.map (fun e => e.2.1) },
        data := entries.map (fun e => e.2.2) }

/-- Embedding of `XPSParser.removeAlign`: drop every record whose `spectrum_region`
contains `align` case-insensitively (the source deletes in reverse index
order, which is the same filter). -/
def removeAlign : List Record → Except XPSError (List Record)
  | [] => .ok []
  | r :: rest => do
    match r.metadata.spectrum_region with
    | none => .error .keyError
    | some reg => do
      let tail ← removeAlign rest
      .ok (if strContains (pyLower reg) "align" then tail else r :: tail)

/-- Tag loop of `XPSParser._extractTags` over the segments after the first
`#`: each segment is split on `:` (a segment without a colon is an
IndexError on `key_val[1]`), the value is trimmed of whitespace and commas,
and non-empty values are recorded and concatenated. -/
def extractTagsGo : List String → List (String × String) → String →
    Except XPSError (List (String × String) × String)
  | [], params, vals => .ok (params, vals)
  | t :: rest, params, vals =>
    match (pySplitColonAll t).get? 1 with
    | none => .error .indexError
    | some raw =>
      let key := pyStrip ((pySplitColonAll t).headD "")
      let val := pyStripComma (pyStrip raw)
      if val.length ≠ 0 then
        extractTagsGo rest (hmInsert params key val) (vals ++ val ++ ", ")
      else
        extractTagsGo rest params vals

/-- Embedding of `XPSParser._extractTags` on the group-name string: returns the new group
name and the extracted parameters.  With no `#` in the name, the name is kept
and the parameters are empty; otherwise the base segment is used when
non-blank, else the comma-separated value concatenation. -/
def extractTagsCore (gname : String) : Except XPSError (String × List (String × String)) :=
  match pySplitHashAll gname with
  | [] => .ok (gname, [])
  | t0 :: rest =>
    if rest.isEmpty then .ok (gname, [])
    else do
      let pv ← extractTagsGo rest [] ""
      .ok (if (pyStrip t0).length = 0 then pv.2 else t0, pv.1)

/-- Embedding of `XPSParser._extractTags` applied to a dataset record (a record without a
`group_name` key is a KeyError). -/
def extractTagsRecord (r : Record) : Except XPSError Record := do
  match r.metadata.group_name with
  | none => .error .keyError
  | some gn => do
    let gp ← extractTagsCore gn
    .ok { r with metadata := { r.metadata with
            group_name := some gp.1, experiment_parameters := some gp.2 } }

/-- A `SpectrumChannel` entity created for a supplemental channel
(channel id rendered as a string, as in the source). -/
structure ChannelDesc where
  channel_id : String := ""
  label : String := ""
  unit : String := ""
  deriving DecidableEq, Repr

/-- One `Measurement` entity as the archive-writing loop of `XPSParser.parse`
fills it: instrument settings, the role-partitioned channel data (the energy
array keeps the unit string it is attached to), and the spectrum region. -/
structure ArchiveItem where
  method_name : String := ""
  n_scans : String := ""
  dwell_time : String := ""
  excitation_energy : String := ""
  source_label : Option String := none
  additional_channels : List ChannelDesc := []
  count : Option (List String) := none
  energy : Option (List String × String) := none
  additional_channel_data : List (List String) := []
  spectrum_region : String := ""
  deriving DecidableEq, Repr

/-- The label set the archive writer treats as core roles. -/
def CORE_LABELS : List String := ["count", "total_counts", "energy", "kinetic_energy"]

/-- Label normalisation of the archive writer:
`label.lower().replace(' ', '_')`. -/
def normalizeLabel (l : String) : String :=
  String.mk ((pyLower l).data.map (fun c => if c = ' ' then '_' else c))

/-- Body of the supplemental-channel loop of the archive writer: every
non-core label contributes one `SpectrumChannel` descriptor. -/
def archiveChannelStep (acc : List ChannelDesc) (p : DataLabel × List String) :
    List ChannelDesc :=
  if CORE_LABELS.contains (normalizeLabel p.1.label) then acc
  else acc ++ [{ channel_id := toString p.1.channel_id, label := p.1.label, unit := p.1.unit }]

/-- Role accumulator of the archive writer: the count role, the energy role
(with its unit string) and the supplemental arrays in order. -/
abbrev RoleAcc := Option (List String) × Option (List String × String) × List (List String)

/-- Body of the role-partition loop of the archive writer: count-like labels
set the count role (last match wins), energy-like labels the energy role, and
everything else is appended to the supplemental arrays. -/
def archiveRolesStep (acc : RoleAcc) (p : DataLabel × List String) : RoleAcc :=
  let cl := normalizeLabel p.1.label
  if cl = "count" || cl = "total_counts" then (some p.2, acc.2.1, acc.2.2)
  else if cl = "energy" || cl = "kinetic_energy" then (acc.1, some (p.2, p.1.unit), acc.2.2)
  else (acc.1, acc.2.1, acc.2.2 ++ [p.2])

/-- Archive-writing loop body of `XPSParser.parse` for one dataset record.
The source walks `data_labels` and indexes `item.data` with the position of
each label; the two lists are built in lock-step by `moveChannelMeta`, so
they are zipped here. -/
def writeArchiveItem (r : Record) : Except XPSError ArchiveItem := do
  match r.metadata.spectrum_region with
  | none => .error .keyError
  | some reg =>
    let pairs := r.metadata.data_labels.zip r.data
    let addch := pairs.foldl archiveChannelStep []
    let roles := pairs.foldl archiveRolesStep (none, none, [])
    .ok { method_name := r.metadata.method_type,
          n_scans := r.metadata.n_scans,
          dwell_time := r.metadata.dwell_time,
          excitation_energy := r.metadata.excitation_energy,
          source_label := r.metadata.source_label,
          additional_channels := addch,
          count := roles.1,
          energy := roles.2.1,
          additional_channel_data := roles.2.2,
          spectrum_region := reg }

/-- Embedding of `XPSParser.parse` end to end on the loaded lines: global header, block
loop, grouping, per-group classes, dict conversion and channel-metadata move,
align removal, tag extraction, and the archive-writing loop.  `s` is the
parser-instance state that survives from earlier invocations; the returned
state is what a later invocation would see. -/
def parseXY (s : PState) (lines : List String) :
    Except XPSError (List ArchiveItem × PState) := do
  let (gh, rest) ← parseGlobalHeader lines
  let blocks ← parseBlocks rest
  let groups ← groupSpectra blocks
  let (mrecs, s2) ← putGroupsIntoClasses gh s groups
  let recs ← mrecs.mapM moveChannelMeta
  let recs2 ← removeAlign recs
  let recs3 ← recs2.mapM extractTagsRecord
  let items ← recs3.mapM writeArchiveItem
  .ok (items, s2)

/-- The parser-instance state of a freshly constructed `XPSParser` (neither
carry-over attribute exists yet). -/
def freshPState : PState := {}

/-- The block property induced by the C9 hypothesis: a block that is not
external carries its own Region and Group headers. -/
def blockHasRG (b : Block) : Prop :=
  checkExternalChannel b.1 = false →
    hmHasKey b.1 "Region" = true ∧ hmHasKey b.1 "Group" = true

/-- The channel property the grouper establishes: a channel tagged primary
carries its own Region and Group headers. -/
def chanHasRG (ch : Block) : Prop :=
  hmFind ch.1 "channel_type" = some "primary" →
    hmHasKey ch.1 "Region" = true ∧ hmHasKey ch.1 "Group" = true

/-- Number of blank lines (in the sense of the global-header loop) in a list
of lines. -/
def countBlankLines (lines : List String) : Nat :=
  (lines.filter (fun l => isBlankLine l)).length

/-- Modelled from the spec: a header key/value line is split on the FIRST
colon, the key is the trimmed text before it and the value is the entire
trimmed text after it, with the remaining segments re-joined when the line
has several colons.  Used to compare the spec rule with the source. -/
def specHeaderKV (t : String) : String × String :=
  match splitOnCharList ':' t.data with
  | [] => (pyStrip t, pyStrip t)
  | [a] => (pyStrip (String.mk a), pyStrip (String.mk a))
  | a :: rest => (pyStrip (String.mk a), pyStrip (String.mk (joinColon rest)))

/-- Modelled from the spec claim C1: the emitted invariant that the energy
array, the count array and every supplemental channel array have equal
length (both roles present). -/
def lenInvariantHolds (it : ArchiveItem) : Bool :=
  match it.energy, it.count with
  | some e, some c =>
    (c.length = e.1.length) && it.additional_channel_data.all (fun a => a.length = e.1.length)
  | _, _ => false

/-- Per-group slice of the pipeline from a classified group to the emitted
archive entity: group metadata and channels, channel-metadata move, tag
extraction and the archive-writing loop body. -/
def groupEmit (gh : HeaderMap) (s : PState) (g : List Block) : Except XPSError ArchiveItem := do
  let (mrec, _) ← putGroupIntoClass gh s g
  let r ← moveChannelMeta mrec
  let r2 ← extractTagsRecord r
  writeArchiveItem r2

/-- The last `External Channel` key/value pair of a header in its insertion
order (the pair whose inner device-name loop runs last). -/
def lastExternalKV (m : HeaderMap) : Option (String × String) :=
  (m.filter (fun kv => strContains kv.1 "External Channel")).getLast?

/-- Decidable hypothesis for the amended claim C9: every block the block
parser would classify as primary carries its own `Region` and `Group`
headers (vacuously true when parsing would fail earlier). -/
def primariesHaveRegionAndGroup (lines : List String) : Bool :=
  match parseGlobalHeader lines with
  | .error _ => true
  | .ok (_, rest) =>
    match parseBlocks rest with
    | .error _ => true
    | .ok blocks =>
      blocks.all (fun b =>
        checkExternalChannel b.1 || (hmHasKey b.1 "Region" && hmHasKey b.1 "Group"))

/-- Input file of the counterexample to claim C1: the external block has
three data rows while the primary block has two (the final empty line is the
terminator the block loop never consumes). -/
def c1CexLines : List String :=
  ["# Energy Axis: Kinetic Energy", "# Count Rate: Counts", "#", "#",
   "# Region: Survey", "# Group: G1", "1.0 10.0", "2.0 20.0",
   "# External Channel 1: Ring Current [mA]", "1.0 5.0", "2.0 6.0", "3.0 7.0", ""]

/-- Classified group for the witness of the amended claim C1: all blocks
have two data rows. -/
def c1WitnessGroup : List Block :=
  [([("Region", "Survey"), ("Group", "G1"), ("channel_type", "primary")],
    [["1.0", "10.0"], ["2.0", "20.0"]]),
   ([("External Channel 1", "Ring Current [mA]"), ("channel_type", "external")],
    [["1.0", "5.0"], ["2.0", "6.0"]])]

/-- File-scope header used by the C1 witness. -/
def c1WitnessGlobal : HeaderMap :=
  [("Energy Axis", "Kinetic Energy"), ("Count Rate", "Counts")]

/-- Input file of the counterexample to claim C9: its only primary block has
a `Group` header but no `Region` header, so the metadata resolver reads the
parser-instance carry-over state. -/
def c9CexLines : List String :=
  ["# Energy Axis: Kinetic Energy", "# Count Rate: Counts", "#", "#",
   "# Group: G1", "1.0 10.0", "2.0 20.0", ""]

/-- Parser-instance state left behind by some earlier parse invocation. -/
def c9PriorState : PState := { current_region := some "RegA", current_group := some "GA" }

/-- Group of the counterexample to claim C6: the first block supplies an
`Analysis Method` header, the second does not. -/
def c6CexGroup : List Block :=
  [([("Analysis Method", "UPS"), ("channel_type", "primary")], []),
   ([("channel_type", "external")], [])]

/-- External-channel header of the counterexample to claim C7: its value
contains exactly one known vendor device substring. -/
def c7CexHeader : HeaderMap :=
  [("External Channel 0", "AMC Mono (TCP)"), ("channel_type", "external")]

/-- The archive entity emitted for `c1WitnessGroup`. -/
def c1WitnessItem : ArchiveItem :=
  { method_name := "XPS",
    n_scans := "",
    dwell_time := "",
    excitation_energy := "",
    source_label := none,
    additional_channels := [{ channel_id := "2", label := "ring current", unit := "mA" }],
    count := some ["10.0", "20.0"],
    energy := some (["1.0", "2.0"], "eV"),
    additional_channel_data := [["5.0", "6.0"]],
    spectrum_region := "Survey" }

/-- Input file for the witness of claim C5: the first data block after the
(empty) global header is an external-channel block. -/
def c5WitnessLines : List String :=
  ["#", "#", "# External Channel 1: x", "1.0 2.0", ""]

/-- The single data block of `c5WitnessLines`. -/
def c5WitnessBlock : Block :=
  ([("External Channel 1", "x")], [["1.0", "2.0"]])

end XPS

deriving instance DecidableEq for Except

namespace XPS

/-- C8: tag extraction round-trips. -/
theorem c8_tag_roundtrip :
    extractTagsCore "BaseName#Tag1: v1,#Tag2: v2" =
      .ok ("BaseName", [("Tag1", "v1"), ("Tag2", "v2")]) ∧
    extractTagsCore "#Tag1: v1" = .ok ("v1, ", [("Tag1", "v1")]) :=
  ⟨rfl, rfl⟩

/-- C3 counterexample. -/
theorem c3_counterexample :
    parseGlobalHeader ["Acquisition Date: 06/25/21 12:15:57", "", ""] =
      .ok ([("Acquisition Date", "57")], []) ∧
    ("57" : String) ≠ "06/25/21 12:15:57" :=
  ⟨rfl, by decide⟩

/-- C4 counterexample. -/
theorem c4_counterexample :
    parseGlobalHeader ["A: 1", "", "B: 2", "", "C: 3", "", ""] =
      .ok ([("A", "1"), ("B", "2")], ["C: 3", "", ""]) ∧
    hmFind [("A", "1"), ("B", "2")] "C" = none :=
  ⟨rfl, rfl⟩

/-- C6 counterexample. -/
theorem c6_counterexample :
    getMethodType c6CexGroup = .ok "XPS" ∧
    hmFind (c6CexGroup.headD ([], [])).1 "Analysis Method" = some "UPS" ∧
    checkIfNexafs c6CexGroup = false ∧
    ("XPS" : String) ≠ "UPS" :=
  ⟨rfl, rfl, rfl, by decide⟩

/-- C7 counterexample. -/
theorem c7_counterexample :
    getDeviceName c7CexHeader = .ok "unknown device" ∧
    (KNOWN_DEVICE_NAMES.filter (fun dn => strContains "AMC Mono (TCP)" dn.1)).length = 1 ∧
    tableFind KNOWN_DEVICE_NAMES "AMC Mono (TCP)" = some "monochromator" ∧
    ("unknown device" : String) ≠ "monochromator" :=
  ⟨rfl, rfl, rfl, by decide⟩

/-- C1 counterexample. -/
theorem c1_counterexample :
    (parseXY freshPState c1CexLines).map (fun p => p.1.map lenInvariantHolds) = .ok [false] ∧
    (parseXY freshPState c1CexLines).map (fun p => p.1.map (fun it =>
      (it.energy.map (fun e => e.1.length), it.count.map List.length,
       it.additional_channel_data.map List.length))) = .ok [(some 2, some 2, [3])] :=
  ⟨rfl, rfl⟩

/-- C9 counterexample. -/
theorem c9_counterexample :
    (parseXY c9PriorState c9CexLines).map Prod.fst ≠
    (parseXY freshPState c9CexLines).map Prod.fst := by
  decide

end XPS

namespace XPS

/-- Bind of a success in the `Except` monad. -/
theorem exceptBind_ok {e a b : Type} (x : a) (f : a → Except e b) :
    (Except.ok x >>= f) = f x := rfl

/-- Bind of a failure in the `Except` monad. -/
theorem exceptBind_err {e a b : Type} (err : e) (f : a → Except e b) :
    ((Except.error err : Except e a) >>= f) = .error err := rfl

/-- With fewer than two blank lines available, the global-header loop runs
off the end of the input. -/
theorem parseGlobalHeaderGo_malformed (rest : List String) : ∀ (empties : Nat) (acc : HeaderMap),
    empties + countBlankLines rest < 2 →
    parseGlobalHeaderGo rest empties acc = .error .malformedHeader := by
  induction rest with
  | nil =>
    intro empties acc h
    have h2 : ¬ empties ≥ 2 := by
      simp [countBlankLines] at h
      omega
    simp [parseGlobalHeaderGo, h2]
  | cons l rest ih =>
    intro empties acc h
    have h2 : ¬ empties ≥ 2 := by
      simp [countBlankLines] at h ⊢
      omega
    by_cases hb : isBlankLine l
    · have h3 : (empties + 1) + countBlankLines rest < 2 := by
        simp [countBlankLines, List.filter, hb] at h ⊢
        omega
      simp [parseGlobalHeaderGo, h2, hb, ih _ _ h3]
    · have h3 : empties + countBlankLines rest < 2 := by
        simp [countBlankLines, List.filter, hb] at h ⊢
        omega
      simp [parseGlobalHeaderGo, h2, hb, ih _ _ h3]

/-- C2: an input whose global header never reaches the two-blank-line
terminator (fewer than two blank lines in the whole file) makes the parse
fail with the typed malformed-header error. -/
theorem c2_malformed_header (s : PState) (lines : List String)
    (h : countBlankLines lines < 2) :
    parseXY s lines = .error .malformedHeader := by
  have hg : parseGlobalHeader lines = .error .malformedHeader :=
    parseGlobalHeaderGo_malformed lines 0 [] (by simpa using h)
  simp only [parseXY, hg]
  rfl

/-- Witness for C2 at a concrete input. -/
theorem c2_malformed_header_witness :
    countBlankLines ["A: 1"] < 2 ∧
    parseXY freshPState ["A: 1"] = .error .malformedHeader :=
  ⟨by decide, c2_malformed_header freshPState ["A: 1"] (by decide)⟩

/-- C5: when the first parsed data block is classified external, the parse
fails with the typed orphan-external-channel error. -/
theorem c5_orphan_external (s : PState) (lines : List String) (gh : HeaderMap)
    (rest : List String) (b : Block) (bs : List Block)
    (h1 : parseGlobalHeader lines = .ok (gh, rest))
    (h2 : parseBlocks rest = .ok (b :: bs))
    (h3 : checkExternalChannel b.1 = true) :
    parseXY s lines = .error .orphanExternalChannel := by
  have hg : groupSpectra (b :: bs) = .error .orphanExternalChannel := by
    simp [groupSpectra, groupSpectraGo, h3]
  simp only [parseXY, h1, exceptBind_ok, exceptBind_err, h2, hg]

/-- Witness for C5 at a concrete input. -/
theorem c5_orphan_external_witness :
    parseXY freshPState c5WitnessLines = .error .orphanExternalChannel :=
  c5_orphan_external freshPState c5WitnessLines []
    ["# External Channel 1: x", "1.0 2.0", ""] c5WitnessBlock [] rfl rfl rfl

end XPS

namespace XPS

/-- A left fold whose body ignores the accumulator is decided by the last
list element. -/
theorem foldl_ignore_acc_last {a b : Type} (F : a → b) :
    ∀ (l : List a) (x : a) (d : b),
    (x :: l).foldl (fun _ y => F y) d = F (lastD l x)
  | [], _, _ => rfl
  | y :: l, x, _ => foldl_ignore_acc_last F l y (F x)

/-- The optional last element of a non-empty list, through `lastD`. -/
theorem getLast?_cons_eq_lastD {a : Type} :
    ∀ (l : List a) (x : a), (x :: l).getLast? = some (lastD l x)
  | [], _ => rfl
  | y :: l, x => by
    rw [List.getLast?_cons_cons]
    exact getLast?_cons_eq_lastD l y

/-- A known optional last element determines `lastD`. -/
theorem lastD_eq_of_getLast? {a : Type} {l : List a} {y : a}
    (h : l.getLast? = some y) (x : a) : lastD l x = y := by
  cases l with
  | nil => simp at h
  | cons z zs =>
    rw [getLast?_cons_eq_lastD] at h
    exact Option.some.inj h

/-- C6 amended: NEXAFS wins when signalled; otherwise the LAST block of the
group decides the method type (its Analysis Method value when present, the
default otherwise), because the resolver loop rebinds the result on every
block. -/
theorem c6_amended (g : List Block) (b : Block) (hlast : g.getLast? = some b) :
    getMethodType g =
      .ok (if checkIfNexafs g then "NEXAFS"
           else match hmFind b.1 "Analysis Method" with
                | some v => v
                | none => DEFAULT_METHOD_TYPE) := by
  by_cases hn : checkIfNexafs g
  · simp [getMethodType, hn]
  · cases g with
    | nil => simp at hlast
    | cons x l =>
      have hb : lastD l x = b := by
        rw [getLast?_cons_eq_lastD] at hlast
        exact Option.some.inj hlast
      simp only [getMethodType, hn, if_false, Bool.false_eq_true, reduceIte]
      rw [← hb]
      exact congrArg Except.ok (foldl_ignore_acc_last (fun ch =>
        match hmFind ch.1 "Analysis Method" with
        | some v => v
        | none => DEFAULT_METHOD_TYPE) l x DEFAULT_METHOD_TYPE)

/-- Witness for the amended C6 at a concrete group. -/
theorem c6_amended_witness :
    getMethodType c6CexGroup = .ok "XPS" :=
  c6_amended c6CexGroup ([("channel_type", "external")], []) rfl

/-- The inner device-name loop is decided by the last table entry. -/
theorem deviceNameLookup_eq (v : String) (init : String) :
    deviceNameLookup v init =
      if strContains v "Armin10" then "armin" else "unknown device" := by
  simp [deviceNameLookup, KNOWN_DEVICE_NAMES]

/-- A fold that rewrites the accumulator exactly on matching elements is
decided by the last matching element. -/
theorem foldl_last_match {a b : Type} (p : a → Bool) (F : a → b) (l : List a) :
    ∀ (acc : Option b),
    l.foldl (fun acc x => if p x then some (F x) else acc) acc =
      match (l.filter p).getLast? with
      | some x => some (F x)
      | none => acc := by
  induction l with
  | nil => intro acc; simp
  | cons x l ih =>
    intro acc
    by_cases hp : p x
    · rw [List.foldl_cons]
      simp only [hp, if_true]
      rw [ih (some (F x)), List.filter_cons_of_pos hp, getLast?_cons_eq_lastD]
      cases h : (l.filter p).getLast? with
      | none =>
        have he : l.filter p = [] := by
          cases hl : l.filter p with
          | nil => rfl
          | cons z zs =>
            rw [hl, getLast?_cons_eq_lastD] at h
            exact absurd h (by simp)
        simp [he, lastD]
      | some y =>
        rw [lastD_eq_of_getLast? h x]
    · rw [List.foldl_cons]
      simp only [hp, if_false, Bool.false_eq_true, reduceIte]
      rw [ih acc, List.filter_cons_of_neg (by simpa using hp)]

/-- C7 amended: for an external channel the device name is decided by the
last matching External Channel key and the last table entry alone: it is
`armin` when that value contains `Armin10` and the unknown-device sentinel
otherwise, so a value containing exactly one other known substring does NOT
resolve to its normalized name. -/
theorem c7_amended (hdr : HeaderMap) (k v : String)
    (hct : hmFind hdr "channel_type" = some "external")
    (hlast : lastExternalKV hdr = some (k, v)) :
    getDeviceName hdr =
      .ok (if strContains v "Armin10" then "armin" else "unknown device") := by
  simp only [getDeviceName, hct]
  rw [if_neg (by decide), if_neg (by decide)]
  have hfold : hdr.foldl (fun (acc : Option String) kv =>
      if strContains kv.1 "External Channel" then some (deviceNameLookup kv.2 (acc.getD ""))
      else acc) none =
      hdr.foldl (fun (acc : Option String) kv =>
      if strContains kv.1 "External Channel" then
        some (if strContains kv.2 "Armin10" then "armin" else "unknown device")
      else acc) none := by
    apply List.foldl_ext
    intro acc kv _
    rw [deviceNameLookup_eq]
  rw [hfold, foldl_last_match (fun kv => strContains kv.1 "External Channel")
    (fun kv => if strContains kv.2 "Armin10" then "armin" else "unknown device") hdr none]
  unfold lastExternalKV at hlast
  rw [hlast]

/-- Witness for the amended C7 at a concrete header. -/
theorem c7_amended_witness :
    getDeviceName [("External Channel 0", "via Armin10"), ("channel_type", "external")] =
      .ok "armin" := by
  have h := c7_amended [("External Channel 0", "via Armin10"), ("channel_type", "external")]
    "External Channel 0" "via Armin10" rfl rfl
  simpa using h

end XPS

namespace XPS

/-- Non-blank lines are folded into the header map one by one. -/
theorem parseGlobalHeaderGo_nonblank (p : List String) :
    ∀ (r : List String) (e : Nat) (acc : HeaderMap),
    (∀ l ∈ p, isBlankLine l = false) → e < 2 →
    parseGlobalHeaderGo (p ++ r) e acc =
      parseGlobalHeaderGo r e (p.foldl globalHeaderRecord acc) := by
  induction p with
  | nil => intro r e acc _ _; simp
  | cons x p ih =>
    intro r e acc hnb he
    have hx : isBlankLine x = false := hnb x (by simp)
    have h2 : ¬ e ≥ 2 := by omega
    rw [List.cons_append]
    rw [show parseGlobalHeaderGo (x :: (p ++ r)) e acc =
        parseGlobalHeaderGo (p ++ r) e (globalHeaderRecord acc x) by
      simp [parseGlobalHeaderGo, h2, hx]]
    rw [ih r e (globalHeaderRecord acc x) (fun l hl => hnb l (by simp [hl])) he]
    simp

/-- A blank line bumps the counter. -/
theorem parseGlobalHeaderGo_blank (b : String) (r : List String) (e : Nat)
    (acc : HeaderMap) (hb : isBlankLine b = true) (he : e < 2) :
    parseGlobalHeaderGo (b :: r) e acc = parseGlobalHeaderGo r (e + 1) acc := by
  have h2 : ¬ e ≥ 2 := by omega
  simp [parseGlobalHeaderGo, h2, hb]

/-- C4 amended: the global header terminates at the SECOND blank line in
total — the counter never resets on key/value lines — so the key/value lines
before and between the two (possibly non-consecutive) blank lines are
recorded and everything after the second blank line is left unconsumed. -/
theorem c4_amended (p₁ p₂ rest : List String) (b₁ b₂ : String)
    (h₁ : ∀ l ∈ p₁, isBlankLine l = false) (h₂ : ∀ l ∈ p₂, isBlankLine l = false)
    (hb₁ : isBlankLine b₁ = true) (hb₂ : isBlankLine b₂ = true) :
    parseGlobalHeader (p₁ ++ b₁ :: (p₂ ++ b₂ :: rest)) =
      .ok ((p₁ ++ p₂).foldl globalHeaderRecord [], rest) := by
  unfold parseGlobalHeader
  rw [parseGlobalHeaderGo_nonblank p₁ _ 0 [] h₁ (by omega)]
  rw [parseGlobalHeaderGo_blank b₁ _ 0 _ hb₁ (by omega)]
  rw [parseGlobalHeaderGo_nonblank p₂ _ 1 _ h₂ (by omega)]
  rw [parseGlobalHeaderGo_blank b₂ _ 1 _ hb₂ (by omega)]
  rw [List.foldl_append]
  rw [parseGlobalHeaderGo.eq_def]
  simp

/-- Witness for the amended C4 at a concrete input. -/
theorem c4_amended_witness :
    parseGlobalHeader (["A: 1"] ++ "" :: (["B: 2"] ++ "" :: ["C: 3"])) =
      .ok ((["A: 1"] ++ ["B: 2"]).foldl globalHeaderRecord [], ["C: 3"]) :=
  c4_amended ["A: 1"] ["B: 2"] ["C: 3"] "" ""
    (by decide) (by decide) (by decide) (by decide)

end XPS

namespace XPS

/-- C3 amended: for a header line whose marker-stripped text contains a
colon, a per-block DATA header stores exactly the spec rule — the key is the
trimmed text before the first colon and the value the entire trimmed
re-joined text after it; the GLOBAL header stores the spec key but only the
trimmed text after the LAST colon as the value (middle segments are
dropped), e.g. an Acquisition Date line keeps only the seconds field. -/
theorem c3_amended
    (l stop : String) (rest : List String) (acc : HeaderMap)
    (g b₁ b₂ : String) (rest2 : List String)
    (hl : startsWithHash l = true) (hstop : startsWithHash stop = false)
    (hcl : 2 ≤ (splitOnCharList ':' (pyStripHash l).data).length)
    (hg : isBlankLine g = false) (hb₁ : isBlankLine b₁ = true)
    (hb₂ : isBlankLine b₂ = true)
    (hcg : 2 ≤ (splitOnCharList ':' (pyStrip (pyStripHash g)).data).length) :
    parseDataHeaderGo (l :: stop :: rest) acc =
      .ok (hmInsert acc (specHeaderKV (pyStripHash l)).1 (specHeaderKV (pyStripHash l)).2,
           stop :: rest) ∧
    parseGlobalHeader (g :: b₁ :: b₂ :: rest2) =
      .ok (hmInsert [] (specHeaderKV (pyStrip (pyStripHash g))).1
             (pyStrip ((pySplitColonAll (pyStrip (pyStripHash g))).getLastD "")), rest2) := by
  constructor
  · rw [parseDataHeaderGo.eq_def]
    simp only [hl, if_true]
    rw [parseDataHeaderGo.eq_def]
    simp only [hstop, if_false, Bool.false_eq_true, reduceIte]
    cases hsp : splitOnCharList ':' (pyStripHash l).data with
    | nil => rw [hsp] at hcl; simp at hcl
    | cons a parts =>
      cases parts with
      | nil => rw [hsp] at hcl; simp at hcl
      | cons b parts2 =>
        simp [pySplitColon1, specHeaderKV, hsp]
  · have hgc : parseGlobalHeader (g :: b₁ :: b₂ :: rest2) =
        .ok (globalHeaderRecord [] g, rest2) := by
      have := c4_amended [g] [] rest2 b₁ b₂
        (by intro x hx; simp at hx; rw [hx]; exact hg) (by intro x hx; simp at hx)
        hb₁ hb₂
      simpa using this
    rw [hgc]
    cases hsp : splitOnCharList ':' (pyStrip (pyStripHash g)).data with
    | nil => rw [hsp] at hcg; simp at hcg
    | cons a parts =>
      cases parts with
      | nil => rw [hsp] at hcg; simp at hcg
      | cons b parts2 =>
        simp [globalHeaderRecord, specHeaderKV, pySplitColonAll, hsp]

end XPS

namespace XPS

/-- Witness for the amended C3 at the Acquisition Date example. -/
theorem c3_amended_witness :
    parseDataHeaderGo ["#Acquisition Date: 06/25/21 12:15:57", "x"] [] =
      .ok ([("Acquisition Date", "06/25/21 12:15:57")], ["x"]) ∧
    parseGlobalHeader ["Acquisition Date: 06/25/21 12:15:57", "", ""] =
      .ok ([("Acquisition Date", "57")], []) := by
  have h := c3_amended "#Acquisition Date: 06/25/21 12:15:57" "x" [] []
    "Acquisition Date: 06/25/21 12:15:57" "" "" []
    (by decide) (by decide) (by decide) (by decide) (by decide) (by decide) (by decide)
  exact ⟨h.1.trans (by decide), h.2.trans (by decide)⟩

end XPS

namespace XPS

/-- A data header over lines ending in a non-comment line never runs off the
end, and the content of that final line is irrelevant. -/
theorem parseDataHeaderGo_snoc (l₁ l₂ : String) (h₁ : startsWithHash l₁ = false)
    (h₂ : startsWithHash l₂ = false) (p : List String) :
    ∀ (acc : HeaderMap),
    ∃ h r, parseDataHeaderGo (p ++ [l₁]) acc = .ok (h, r ++ [l₁]) ∧
           parseDataHeaderGo (p ++ [l₂]) acc = .ok (h, r ++ [l₂]) := by
  induction p with
  | nil =>
    intro acc
    exact ⟨acc, [], by simp [parseDataHeaderGo, h₁], by simp [parseDataHeaderGo, h₂]⟩
  | cons x p ih =>
    intro acc
    by_cases hx : startsWithHash x
    · obtain ⟨h, r, e₁, e₂⟩ := ih (hmInsert acc
        (pyStrip ((pySplitColon1 (pyStripHash x)).headD ""))
        (pyStrip ((pySplitColon1 (pyStripHash x)).getLastD "")))
      refine ⟨h, r, ?_, ?_⟩
      · rw [List.cons_append, parseDataHeaderGo.eq_def]
        simpa [hx] using e₁
      · rw [List.cons_append, parseDataHeaderGo.eq_def]
        simpa [hx] using e₂
    · refine ⟨acc, x :: p, ?_, ?_⟩
      · rw [List.cons_append, parseDataHeaderGo.eq_def]
        simp [hx]
      · rw [List.cons_append, parseDataHeaderGo.eq_def]
        simp [hx]

/-- The data-value loop on a single remaining line stops at once. -/
theorem parseDataValuesGo_single (l : String) : parseDataValuesGo [l] = ([], [l]) := by
  simp [parseDataValuesGo]

/-- The data-value loop never consumes the final line, and its content is
irrelevant while it is not a comment line. -/
theorem parseDataValuesGo_snoc (l₁ l₂ : String) (p : List String) :
    ∃ rows r, parseDataValuesGo (p ++ [l₁]) = (rows, r ++ [l₁]) ∧
              parseDataValuesGo (p ++ [l₂]) = (rows, r ++ [l₂]) := by
  induction p with
  | nil =>
    exact ⟨[], [], by simp [parseDataValuesGo], by simp [parseDataValuesGo]⟩
  | cons x p ih =>
    by_cases hx : startsWithHash x
    · refine ⟨[], x :: p, ?_, ?_⟩
      · cases p with
        | nil => simp [parseDataValuesGo, hx]
        | cons y p2 => simp [parseDataValuesGo, hx]
      · cases p with
        | nil => simp [parseDataValuesGo, hx]
        | cons y p2 => simp [parseDataValuesGo, hx]
    · obtain ⟨rows, r, e₁, e₂⟩ := ih
      cases p with
      | nil =>
        simp only [List.nil_append] at e₁
        rw [parseDataValuesGo_single] at e₁
        have hrows : rows = [] := by
          have hfst := congrArg Prod.fst e₁
          simpa using hfst.symm
        have hr : r = [] := by
          have hsnd := congrArg Prod.snd e₁
          cases r with
          | nil => rfl
          | cons a r2 => simp at hsnd
        subst hrows
        subst hr
        refine ⟨if (pySplitWs x).isEmpty then [] else [pySplitWs x], [], ?_, ?_⟩
        · simp [parseDataValuesGo, hx, parseDataValuesGo_single]
        · simp [parseDataValuesGo, hx, parseDataValuesGo_single]
      | cons y p2 =>
        refine ⟨if (pySplitWs x).isEmpty then rows else pySplitWs x :: rows, r, ?_, ?_⟩
        · simp only [List.cons_append] at e₁ ⊢
          simp [parseDataValuesGo, hx, e₁]
        · simp only [List.cons_append] at e₂ ⊢
          simp [parseDataValuesGo, hx, e₂]

/-- The block loop gives the same blocks whatever non-comment final line the
input ends in. -/
theorem parseBlocksGo_snoc (l₁ l₂ : String) (h₁ : startsWithHash l₁ = false)
    (h₂ : startsWithHash l₂ = false) :
    ∀ (fuel : Nat) (p : List String),
    parseBlocksGo fuel (p ++ [l₁]) = parseBlocksGo fuel (p ++ [l₂]) := by
  intro fuel
  induction fuel with
  | zero =>
    intro p
    rw [parseBlocksGo.eq_def, parseBlocksGo.eq_def]
    simp
  | succ f ih =>
    intro p
    by_cases hp : (p ++ [l₁]).length ≤ 1
    · have hp₂ : (p ++ [l₂]).length ≤ 1 := by simpa using hp
      rw [parseBlocksGo.eq_def, parseBlocksGo.eq_def]
      simp only [hp, hp₂, if_true]
    · have hp₂ : ¬ (p ++ [l₂]).length ≤ 1 := by simpa using hp
      obtain ⟨h, r, e₁, e₂⟩ := parseDataHeaderGo_snoc l₁ l₂ h₁ h₂ p []
      obtain ⟨rows, r2, f₁, f₂⟩ := parseDataValuesGo_snoc l₁ l₂ r
      rw [parseBlocksGo.eq_def, parseBlocksGo.eq_def]
      simp only [hp, hp₂, if_false, reduceIte]
      rw [e₁, e₂]
      simp only [exceptBind_ok, f₁, f₂, ih r2]

/-- C10: the final line of the input is never consumed as a data row — both
the outer block loop and the data-value loop stop when fewer than two lines
remain — so the parsed blocks do not depend on the content of a non-comment
final line; in particular a numeric data row there is silently omitted. -/
theorem c10_last_line_not_data (lines : List String) (l₁ l₂ : String)
    (h₁ : startsWithHash l₁ = false) (h₂ : startsWithHash l₂ = false) :
    parseBlocks (lines ++ [l₁]) = parseBlocks (lines ++ [l₂]) := by
  unfold parseBlocks
  have hlen : (lines ++ [l₁]).length = (lines ++ [l₂]).length := by simp
  rw [hlen]
  exact parseBlocksGo_snoc l₁ l₂ h₁ h₂ _ _

/-- Witness for C10: a numeric row on the last line parses identically to
junk text there; the row is omitted from the block. -/
theorem c10_last_line_not_data_witness :
    parseBlocks (["# A: b", "1.0 2.0"] ++ ["3.0 4.0"]) =
      parseBlocks (["# A: b", "1.0 2.0"] ++ ["junk"]) ∧
    parseBlocks ["# A: b", "1.0 2.0", "3.0 4.0"] =
      .ok [([("A", "b")], [["1.0", "2.0"]])] :=
  ⟨c10_last_line_not_data ["# A: b", "1.0 2.0"] "3.0 4.0" "junk" (by decide) (by decide),
   by decide⟩

end XPS

namespace XPS

/-- A successful `mapM` in the `Except` monad preserves the list length. -/
theorem mapM_ok_length {e a b : Type} (f : a → Except e b) :
    ∀ (xs : List a) (ys : List b), xs.mapM f = .ok ys → ys.length = xs.length := by
  intro xs
  induction xs with
  | nil =>
    intro ys h
    simp only [List.mapM_nil] at h
    cases h
    rfl
  | cons x xs ih =>
    intro ys h
    rw [List.mapM_cons] at h
    cases hfx : f x with
    | error err => rw [hfx] at h; simp [exceptBind_err] at h
    | ok y =>
      rw [hfx, exceptBind_ok] at h
      cases hmx : xs.mapM f with
      | error err => rw [hmx] at h; simp [exceptBind_err] at h
      | ok ys2 =>
        rw [hmx, exceptBind_ok] at h
        cases h
        simp [ih ys2 hmx]

/-- Every element of a successful `mapM` output in the `Except` monad comes
from an element of the input. -/
theorem mapM_ok_mem {e a b : Type} (f : a → Except e b) :
    ∀ (xs : List a) (ys : List b), xs.mapM f = .ok ys →
    ∀ y ∈ ys, ∃ x ∈ xs, f x = .ok y := by
  intro xs
  induction xs with
  | nil =>
    intro ys h
    simp only [List.mapM_nil] at h
    cases h
    intro y hy
    simp at hy
  | cons x xs ih =>
    intro ys h
    rw [List.mapM_cons] at h
    cases hfx : f x with
    | error err => rw [hfx] at h; simp [exceptBind_err] at h
    | ok y0 =>
      rw [hfx, exceptBind_ok] at h
      cases hmx : xs.mapM f with
      | error err => rw [hmx] at h; simp [exceptBind_err] at h
      | ok ys2 =>
        rw [hmx, exceptBind_ok] at h
        cases h
        intro y hy
        rcases List.mem_cons.mp hy with hy0 | hy2
        · exact ⟨x, by simp, by rw [hfx, hy0]⟩
        · obtain ⟨x2, hx2, hfx2⟩ := ih ys2 hmx y hy2
          exact ⟨x2, by simp [hx2], hfx2⟩

end XPS

namespace XPS

/-- Destructing a successful bind in the `Except` monad. -/
theorem bind_ok_destruct {e a b : Type} {m : Except e a} {f : a → Except e b} {y : b}
    (h : (m >>= f) = .ok y) : ∃ x, m = .ok x ∧ f x = .ok y := by
  cases m with
  | error err => simp [exceptBind_err] at h
  | ok x => exact ⟨x, rfl, h⟩

/-- A y channel carries one value per row of its own block. -/
theorem getChannelData_values_length (gh : HeaderMap) (ch : Block) (dc : DataChannel)
    (h : getChannelData gh ch = .ok dc) : dc.values.length = ch.2.length := by
  unfold getChannelData at h
  obtain ⟨ul, hu, h⟩ := bind_ok_destruct h
  obtain ⟨vals, hv, h⟩ := bind_ok_destruct h
  obtain ⟨ds, hd, h⟩ := bind_ok_destruct h
  cases h
  exact mapM_ok_length _ ch.2 vals hv

/-- Every channel produced by the y-channel loop has the row count of one of
the group's blocks. -/
theorem addChannelsGo_values_length (gh : HeaderMap) :
    ∀ (bs : List Block) (cid : Nat) (chans : List DataChannel),
    addChannelsGo gh bs cid = .ok chans →
    ∀ dc ∈ chans, ∃ b ∈ bs, dc.values.length = b.2.length := by
  intro bs
  induction bs with
  | nil =>
    intro cid chans h dc hdc
    unfold addChannelsGo at h
    cases h
    simp at hdc
  | cons ch bs ih =>
    intro cid chans h dc hdc
    unfold addChannelsGo at h
    obtain ⟨dc0, hdc0, h⟩ := bind_ok_destruct h
    obtain ⟨tail, htail, h⟩ := bind_ok_destruct h
    cases h
    rcases List.mem_cons.mp hdc with h0 | ht
    · refine ⟨ch, by simp, ?_⟩
      rw [h0]
      exact getChannelData_values_length gh ch dc0 hdc0
    · obtain ⟨b, hb, hlen⟩ := ih (cid + 1) tail htail dc ht
      exact ⟨b, by simp [hb], hlen⟩

/-- The axis channel carries one value per row of the first block. -/
theorem getXChannel_values_length (gh : HeaderMap) (b0 : Block) (bs : List Block)
    (x : DataChannel) (h : getXChannel gh (b0 :: bs) = .ok x) :
    x.values.length = b0.2.length := by
  unfold getXChannel at h
  obtain ⟨vals, hv, h⟩ := bind_ok_destruct h
  obtain ⟨ds, hd, h⟩ := bind_ok_destruct h
  cases h
  exact mapM_ok_length _ b0.2 vals hv

/-- Under equal row counts, every extracted channel has the primary row
count. -/
theorem addDataChannels_values_length (gh : HeaderMap) (b0 : Block) (bs : List Block)
    (chans : List DataChannel)
    (hrows : ∀ b ∈ b0 :: bs, b.2.length = b0.2.length)
    (h : addDataChannels gh (b0 :: bs) = .ok chans) :
    ∀ dc ∈ chans, dc.values.length = b0.2.length := by
  unfold addDataChannels at h
  obtain ⟨x, hx, h⟩ := bind_ok_destruct h
  obtain ⟨ys, hys, h⟩ := bind_ok_destruct h
  cases h
  intro dc hdc
  rcases List.mem_cons.mp hdc with h0 | ht
  · rw [h0]
    exact getXChannel_values_length gh b0 bs x hx
  · obtain ⟨b, hb, hlen⟩ := addChannelsGo_values_length gh (b0 :: bs) 1 ys hys dc ht
    rw [hlen, hrows b hb]

/-- The moved data arrays are exactly the channels' value arrays. -/
theorem moveChannelMeta_data (r : MeasurementDataRec) (rec : Record)
    (h : moveChannelMeta r = .ok rec) :
    ∀ arr ∈ rec.data, ∃ dc ∈ r.data, arr = dc.values := by
  unfold moveChannelMeta at h
  obtain ⟨entries, he, h⟩ := bind_ok_destruct h
  cases h
  intro arr harr
  simp only [List.mem_map] at harr
  obtain ⟨en, hen, harr⟩ := harr
  obtain ⟨dc, hdc, hfdc⟩ := mapM_ok_mem _ r.data entries he en hen
  refine ⟨dc, hdc, ?_⟩
  cases hl : dc.label with
  | none => rw [hl] at hfdc; simp at hfdc
  | some l =>
    cases hu : dc.unit with
    | none => rw [hl, hu] at hfdc; simp at hfdc
    | some u =>
      rw [hl, hu] at hfdc
      cases hfdc
      rw [← harr]

/-- Tag extraction does not touch the data arrays. -/
theorem extractTagsRecord_data (r rec : Record) (h : extractTagsRecord r = .ok rec) :
    rec.data = r.data := by
  unfold extractTagsRecord at h
  cases hg : r.metadata.group_name with
  | none => rw [hg] at h; simp at h
  | some gn =>
    rw [hg] at h
    obtain ⟨gp, hgp, h⟩ := bind_ok_destruct h
    cases h
    rfl

/-- The role-partition fold only ever stores arrays of the pair list or of
the initial accumulator. -/
theorem rolesFold_invariant (Q : List String → Prop) :
    ∀ (pairs : List (DataLabel × List String)), (∀ p ∈ pairs, Q p.2) →
    ∀ (acc : RoleAcc),
    (∀ vs, acc.1 = some vs → Q vs) →
    (∀ vs u, acc.2.1 = some (vs, u) → Q vs) →
    (∀ vs ∈ acc.2.2, Q vs) →
    (∀ vs, (pairs.foldl archiveRolesStep acc).1 = some vs → Q vs) ∧
    (∀ vs u, (pairs.foldl archiveRolesStep acc).2.1 = some (vs, u) → Q vs) ∧
    (∀ vs ∈ (pairs.foldl archiveRolesStep acc).2.2, Q vs) := by
  intro pairs
  induction pairs with
  | nil =>
    intro _ acc h1 h2 h3
    exact ⟨h1, h2, h3⟩
  | cons p pairs ih =>
    intro hQ acc h1 h2 h3
    rw [List.foldl_cons]
    have hp : Q p.2 := hQ p (by simp)
    have hQ2 : ∀ q ∈ pairs, Q q.2 := fun q hq => hQ q (by simp [hq])
    apply ih hQ2
    · intro vs hvs
      unfold archiveRolesStep at hvs
      by_cases hc : (normalizeLabel p.1.label = "count" || normalizeLabel p.1.label = "total_counts") = true
      · simp only [hc, if_true] at hvs
        cases hvs
        exact hp
      · simp only [hc] at hvs
        by_cases he : (normalizeLabel p.1.label = "energy" || normalizeLabel p.1.label = "kinetic_energy") = true
        · simp only [he, if_true] at hvs
          exact h1 vs hvs
        · simp only [he] at hvs
          exact h1 vs hvs
    · intro vs u hvs
      unfold archiveRolesStep at hvs
      by_cases hc : (normalizeLabel p.1.label = "count" || normalizeLabel p.1.label = "total_counts") = true
      · simp only [hc, if_true] at hvs
        exact h2 vs u hvs
      · simp only [hc] at hvs
        by_cases he : (normalizeLabel p.1.label = "energy" || normalizeLabel p.1.label = "kinetic_energy") = true
        · simp only [he, if_true] at hvs
          cases hvs
          exact hp
        · simp only [he] at hvs
          exact h2 vs u hvs
    · intro vs hvs
      unfold archiveRolesStep at hvs
      by_cases hc : (normalizeLabel p.1.label = "count" || normalizeLabel p.1.label = "total_counts") = true
      · simp only [hc, if_true] at hvs
        exact h3 vs hvs
      · simp only [hc] at hvs
        by_cases he : (normalizeLabel p.1.label = "energy" || normalizeLabel p.1.label = "kinetic_energy") = true
        · simp only [he, if_true] at hvs
          exact h3 vs hvs
        · simp only [he] at hvs
          rcases List.mem_append.mp hvs with hv | hv
          · exact h3 vs hv
          · simp at hv
            rw [hv]
            exact hp

/-- Every array the archive writer emits is one of the record's data
arrays. -/
theorem writeArchiveItem_arrays (r : Record) (it : ArchiveItem)
    (h : writeArchiveItem r = .ok it) :
    (∀ vs u, it.energy = some (vs, u) → vs ∈ r.data) ∧
    (∀ vs, it.count = some vs → vs ∈ r.data) ∧
    (∀ vs ∈ it.additional_channel_data, vs ∈ r.data) := by
  unfold writeArchiveItem at h
  cases hreg : r.metadata.spectrum_region with
  | none => rw [hreg] at h; simp at h
  | some reg =>
    rw [hreg] at h
    cases h
    have hzip : ∀ p ∈ r.metadata.data_labels.zip r.data, p.2 ∈ r.data := by
      intro p hp
      rcases p with ⟨dl, vs⟩
      exact (List.of_mem_zip hp).2
    have hinv := rolesFold_invariant (fun vs => vs ∈ r.data)
      (r.metadata.data_labels.zip r.data) hzip (none, none, [])
      (by intro vs hvs; simp at hvs) (by intro vs u hvs; simp at hvs)
      (by intro vs hvs; simp at hvs)
    exact ⟨fun vs u hvs => hinv.2.1 vs u hvs, fun vs hvs => hinv.1 vs hvs, hinv.2.2⟩

/-- C1 amended: the energy and count arrays always have the primary block's
row count; each supplemental channel array has its own block's row count; so
when every block of a group has the same number of rows as the primary block
(the hypothesis below), all emitted arrays have equal length. -/
theorem c1_amended (gh : HeaderMap) (s : PState) (b0 : Block) (bs : List Block)
    (item : ArchiveItem)
    (hrows : ∀ b ∈ b0 :: bs, b.2.length = b0.2.length)
    (hok : groupEmit gh s (b0 :: bs) = .ok item) :
    (∀ vs u, item.energy = some (vs, u) → vs.length = b0.2.length) ∧
    (∀ vs, item.count = some vs → vs.length = b0.2.length) ∧
    (∀ vs ∈ item.additional_channel_data, vs.length = b0.2.length) := by
  unfold groupEmit at hok
  obtain ⟨ms, hpg, hok⟩ := bind_ok_destruct hok
  rcases ms with ⟨mrec, s2⟩
  change (moveChannelMeta mrec >>= fun r =>
    extractTagsRecord r >>= fun r2 => writeArchiveItem r2) = .ok item at hok
  obtain ⟨r1, hmv, hok2⟩ := bind_ok_destruct hok
  obtain ⟨r2, htg, hwr⟩ := bind_ok_destruct hok2
  unfold putGroupIntoClass at hpg
  obtain ⟨mm, hgm, hpg⟩ := bind_ok_destruct hpg
  rcases mm with ⟨meta, s3⟩
  change (addDataChannels gh (b0 :: bs) >>= fun chans =>
    Except.ok ({ metadata := meta, data := chans }, s3)) = .ok (mrec, s2) at hpg
  obtain ⟨chans, hch, hpg⟩ := bind_ok_destruct hpg
  cases hpg
  have hchan : ∀ dc ∈ chans, dc.values.length = b0.2.length :=
    addDataChannels_values_length gh b0 bs chans hrows hch
  have hdata1 : ∀ arr ∈ r1.data, arr.length = b0.2.length := by
    intro arr harr
    obtain ⟨dc, hdc, harr2⟩ := moveChannelMeta_data _ r1 hmv arr harr
    rw [harr2]
    exact hchan dc hdc
  have hdata2 : ∀ arr ∈ r2.data, arr.length = b0.2.length := by
    rw [extractTagsRecord_data r1 r2 htg]
    exact hdata1
  obtain ⟨he, hc, ha⟩ := writeArchiveItem_arrays r2 item hwr
  exact ⟨fun vs u hvs => hdata2 vs (he vs u hvs),
         fun vs hvs => hdata2 vs (hc vs hvs),
         fun vs hvs => hdata2 vs (ha vs hvs)⟩

/-- Witness for the amended C1 at a concrete group whose blocks all have two
rows. -/
theorem c1_amended_witness :
    (∀ vs u, c1WitnessItem.energy = some (vs, u) → vs.length = 2) ∧
    (∀ vs, c1WitnessItem.count = some vs → vs.length = 2) ∧
    (∀ vs ∈ c1WitnessItem.additional_channel_data, vs.length = 2) :=
  c1_amended c1WitnessGlobal freshPState
    ([("Region", "Survey"), ("Group", "G1"), ("channel_type", "primary")],
     [["1.0", "10.0"], ["2.0", "20.0"]])
    [([("External Channel 1", "Ring Current [mA]"), ("channel_type", "external")],
      [["1.0", "5.0"], ["2.0", "6.0"]])]
    c1WitnessItem (by decide) (by decide)

end XPS

namespace XPS

/-- Inserting a key makes it findable with the inserted value. -/
theorem hmFind_hmInsert_self (m : HeaderMap) (k v : String) :
    hmFind (hmInsert m k v) k = some v := by
  induction m with
  | nil => simp [hmInsert, hmFind]
  | cons kv m ih =>
    rcases kv with ⟨k0, v0⟩
    by_cases hk : k0 = k
    · simp [hmInsert, hmFind, hk]
    · simp [hmInsert, hmFind, hk, ih]

/-- Inserting one key leaves the lookups of other keys unchanged. -/
theorem hmFind_hmInsert_ne (m : HeaderMap) (k k2 v : String) (hne : k ≠ k2) :
    hmFind (hmInsert m k v) k2 = hmFind m k2 := by
  induction m with
  | nil => simp [hmInsert, hmFind, hne]
  | cons kv m ih =>
    rcases kv with ⟨k0, v0⟩
    by_cases hk : k0 = k
    · subst hk
      simp [hmInsert, hmFind, hne]
    · simp [hmInsert, hmFind, hk, ih]

/-- Appending a good channel to the open group preserves the channel
property. -/
theorem appendToLast_preserve (b : Block) (hb : chanHasRG b) :
    ∀ (acc : List (List Block)),
    (∀ g ∈ acc, ∀ ch ∈ g, chanHasRG ch) →
    ∀ g ∈ appendToLast acc b, ∀ ch ∈ g, chanHasRG ch := by
  intro acc
  induction acc with
  | nil =>
    intro _ g hg
    simp [appendToLast] at hg
  | cons g0 acc ih =>
    intro hacc g hg ch hch
    cases acc with
    | nil =>
      simp only [appendToLast] at hg
      rcases List.mem_singleton.mp hg with rfl
      rcases List.mem_append.mp hch with hc | hc
      · exact hacc g0 (by simp) ch hc
      · rw [List.mem_singleton.mp hc]
        exact hb
    | cons g1 acc2 =>
      simp only [appendToLast] at hg
      rcases List.mem_cons.mp hg with rfl | hgtail
      · exact hacc g (by simp) ch hch
      · exact ih (fun g2 hg2 => hacc g2 (by simp [hg2])) g hgtail ch hch

/-- The grouper tags non-external blocks primary and, given the C9
hypothesis on the blocks, every channel of every produced group satisfies
the channel property. -/
theorem groupSpectraGo_preserve :
    ∀ (data : List Block), (∀ b ∈ data, blockHasRG b) →
    ∀ (acc : List (List Block)), (∀ g ∈ acc, ∀ ch ∈ g, chanHasRG ch) →
    ∀ gs, groupSpectraGo data acc = .ok gs →
    ∀ g ∈ gs, ∀ ch ∈ g, chanHasRG ch := by
  intro data
  induction data with
  | nil =>
    intro _ acc hacc gs h
    unfold groupSpectraGo at h
    cases h
    exact hacc
  | cons b data ih =>
    intro hP acc hacc gs h
    have hPd : ∀ b2 ∈ data, blockHasRG b2 := fun b2 hb2 => hP b2 (by simp [hb2])
    unfold groupSpectraGo at h
    by_cases hext : checkExternalChannel b.1 = true
    · rw [if_pos hext] at h
      cases acc with
      | nil => simp at h
      | cons g0 acc2 =>
        have hbQ : chanHasRG (hmInsert b.1 "channel_type" "external", b.2) := by
          intro hfind
          rw [hmFind_hmInsert_self] at hfind
          simp at hfind
        exact ih hPd _ (appendToLast_preserve _ hbQ (g0 :: acc2) hacc) gs h
    · rw [if_neg hext] at h
      have hbQ : chanHasRG (hmInsert b.1 "channel_type" "primary", b.2) := by
        intro _
        obtain ⟨hr, hgk⟩ := hP b (by simp) (by simpa using hext)
        constructor
        · unfold hmHasKey at hr ⊢
          rw [hmFind_hmInsert_ne _ _ _ _ (by decide)]
          exact hr
        · unfold hmHasKey at hgk ⊢
          rw [hmFind_hmInsert_ne _ _ _ _ (by decide)]
          exact hgk
      refine ih hPd _ ?_ gs h
      intro g hg ch hch
      rcases List.mem_append.mp hg with hg0 | hg1
      · exact hacc g hg0 ch hch
      · rw [List.mem_singleton.mp hg1] at hch
        rw [List.mem_singleton.mp hch]
        exact hbQ

end XPS

namespace XPS

/-- Metadata resolution depends on the carried state only through primary
channels that lack Region or Group headers; when every primary channel has
both, two runs from different states produce the same metadata. -/
theorem groupMetaChannels_pairwise :
    ∀ (g : List Block), (∀ ch ∈ g, chanHasRG ch) →
    ∀ (s₁ s₂ : PState) (meta : MetaData),
    (groupMetaChannels s₁ meta g).map Prod.fst =
      (groupMetaChannels s₂ meta g).map Prod.fst := by
  intro g
  induction g with
  | nil => intro _ s₁ s₂ meta; rfl
  | cons ch g ih =>
    intro hQ s₁ s₂ meta
    have hQg : ∀ c ∈ g, chanHasRG c := fun c hc => hQ c (by simp [hc])
    cases hct : hmFind ch.1 "channel_type" with
    | none => simp [groupMetaChannels, hct]
    | some ct =>
      by_cases hp : ct = "primary"
      · subst hp
        obtain ⟨hr, hgk⟩ := hQ ch (by simp) hct
        simp only [groupMetaChannels, hct, hr, hgk, if_true, exceptBind_ok, reduceIte]
      · simp only [groupMetaChannels, hct, if_neg hp]
        exact ih hQg s₁ s₂ meta

/-- Same-metadata is preserved through `getGroupMetaData`. -/
theorem getGroupMetaData_pairwise (gh : HeaderMap) (g : List Block)
    (hQ : ∀ ch ∈ g, chanHasRG ch) (s₁ s₂ : PState) :
    (getGroupMetaData gh s₁ g).map Prod.fst =
      (getGroupMetaData gh s₂ g).map Prod.fst := by
  have h := groupMetaChannels_pairwise g hQ s₁ s₂ {}
  unfold getGroupMetaData
  cases h1 : groupMetaChannels s₁ {} g with
  | error e =>
    rw [h1] at h
    cases h2 : groupMetaChannels s₂ {} g with
    | error e2 =>
      rw [h2] at h
      simp only [Except.map] at h
      cases h
      rfl
    | ok p2 =>
      rw [h2] at h
      simp [Except.map] at h
  | ok p1 =>
    rcases p1 with ⟨m, st₁⟩
    rw [h1] at h
    cases h2 : groupMetaChannels s₂ {} g with
    | error e2 =>
      rw [h2] at h
      simp [Except.map] at h
    | ok p2 =>
      rcases p2 with ⟨m2, st₂⟩
      rw [h2] at h
      simp only [Except.map] at h
      have hm : m = m2 := Except.ok.inj h
      subst hm
      simp only [exceptBind_ok]
      cases hmt : getMethodType g with
      | error e => simp [exceptBind_err]
      | ok mt => simp [exceptBind_ok, Except.map]

end XPS

namespace XPS

/-- Same-record is preserved through `putGroupIntoClass`. -/
theorem putGroupIntoClass_pairwise (gh : HeaderMap) (g : List Block)
    (hQ : ∀ ch ∈ g, chanHasRG ch) (s₁ s₂ : PState) :
    (putGroupIntoClass gh s₁ g).map Prod.fst =
      (putGroupIntoClass gh s₂ g).map Prod.fst := by
  have h := getGroupMetaData_pairwise gh g hQ s₁ s₂
  unfold putGroupIntoClass
  cases h1 : getGroupMetaData gh s₁ g with
  | error e =>
    rw [h1] at h
    cases h2 : getGroupMetaData gh s₂ g with
    | error e2 => rw [h2] at h; simp only [Except.map] at h; cases h; rfl
    | ok p2 => rw [h2] at h; simp [Except.map] at h
  | ok p1 =>
    rcases p1 with ⟨m, st₁⟩
    rw [h1] at h
    cases h2 : getGroupMetaData gh s₂ g with
    | error e2 => rw [h2] at h; simp [Except.map] at h
    | ok p2 =>
      rcases p2 with ⟨m2, st₂⟩
      rw [h2] at h
      simp only [Except.map] at h
      have hm := Except.ok.inj h
      subst hm
      simp only [exceptBind_ok]
      cases hch : addDataChannels gh g with
      | error e => rfl
      | ok chans => rfl

/-- Same-records is preserved through the fold over the groups. -/
theorem putGroupsIntoClasses_pairwise (gh : HeaderMap) :
    ∀ (gs : List (List Block)), (∀ g ∈ gs, ∀ ch ∈ g, chanHasRG ch) →
    ∀ (s₁ s₂ : PState),
    (putGroupsIntoClasses gh s₁ gs).map Prod.fst =
      (putGroupsIntoClasses gh s₂ gs).map Prod.fst := by
  intro gs
  induction gs with
  | nil => intro _ s₁ s₂; rfl
  | cons g gs ih =>
    intro hQ s₁ s₂
    have hQg : ∀ g2 ∈ gs, ∀ ch ∈ g2, chanHasRG ch :=
      fun g2 hg2 => hQ g2 (List.mem_cons_of_mem _ hg2)
    have h := putGroupIntoClass_pairwise gh g (hQ g (by simp)) s₁ s₂
    unfold putGroupsIntoClasses
    cases h1 : putGroupIntoClass gh s₁ g with
    | error e =>
      rw [h1] at h
      cases h2 : putGroupIntoClass gh s₂ g with
      | error e2 => rw [h2] at h; simp only [Except.map] at h; cases h; rfl
      | ok p2 => rw [h2] at h; simp [Except.map] at h
    | ok p1 =>
      rcases p1 with ⟨rec1, st₁⟩
      rw [h1] at h
      cases h2 : putGroupIntoClass gh s₂ g with
      | error e2 => rw [h2] at h; simp [Except.map] at h
      | ok p2 =>
        rcases p2 with ⟨rec2, st₂⟩
        rw [h2] at h
        simp only [Except.map] at h
        have hr := Except.ok.inj h
        subst hr
        simp only [exceptBind_ok]
        have hrec := ih hQg st₁ st₂
        cases hh1 : putGroupsIntoClasses gh st₁ gs with
        | error e =>
          rw [hh1] at hrec
          cases hh2 : putGroupsIntoClasses gh st₂ gs with
          | error e2 => rw [hh2] at hrec; simp only [Except.map] at hrec; cases hrec; rfl
          | ok q2 => rw [hh2] at hrec; simp [Except.map] at hrec
        | ok q1 =>
          rcases q1 with ⟨recs1, sf₁⟩
          rw [hh1] at hrec
          cases hh2 : putGroupsIntoClasses gh st₂ gs with
          | error e2 => rw [hh2] at hrec; simp [Except.map] at hrec
          | ok q2 =>
            rcases q2 with ⟨recs2, sf₂⟩
            rw [hh2] at hrec
            simp only [Except.map] at hrec
            have hq := Except.ok.inj hrec
            subst hq
            rfl

/-- The stages after the group fold are functions of the records alone, so
the first components agree for any two final states. -/
theorem parseXYTail_map_fst (mrecs : List MeasurementDataRec) (sA sB : PState) :
    (Except.map Prod.fst (mrecs.mapM moveChannelMeta >>= fun recs =>
      removeAlign recs >>= fun recs2 => recs2.mapM extractTagsRecord >>= fun recs3 =>
      recs3.mapM writeArchiveItem >>= fun items => Except.ok (items, sA))) =
    (Except.map Prod.fst (mrecs.mapM moveChannelMeta >>= fun recs =>
      removeAlign recs >>= fun recs2 => recs2.mapM extractTagsRecord >>= fun recs3 =>
      recs3.mapM writeArchiveItem >>= fun items => Except.ok (items, sB))) := by
  cases mrecs.mapM moveChannelMeta with
  | error e => rfl
  | ok recs =>
    simp only [exceptBind_ok]
    cases removeAlign recs with
    | error e => rfl
    | ok recs2 =>
      simp only [exceptBind_ok]
      cases recs2.mapM extractTagsRecord with
      | error e => rfl
      | ok recs3 =>
        simp only [exceptBind_ok]
        cases recs3.mapM writeArchiveItem with
        | error e => rfl
        | ok items => rfl

/-- C9 amended: of the per-invocation state only the carried-over
spectrum_region and group_name survive across parse invocations, and they
are read exactly when a primary block lacks its own Region or Group header;
when every primary block carries both headers, parsing the same content from
any two prior parser states emits the same records. -/
theorem c9_amended (lines : List String) (s₁ s₂ : PState)
    (h : primariesHaveRegionAndGroup lines = true) :
    (parseXY s₁ lines).map Prod.fst = (parseXY s₂ lines).map Prod.fst := by
  unfold primariesHaveRegionAndGroup at h
  unfold parseXY
  cases hgh : parseGlobalHeader lines with
  | error e => rfl
  | ok p =>
    rcases p with ⟨gh, rest⟩
    rw [hgh] at h
    have hmid : (match parseBlocks rest with
      | .error _ => true
      | .ok blocks => blocks.all (fun b =>
          checkExternalChannel b.1 || (hmHasKey b.1 "Region" && hmHasKey b.1 "Group"))) = true := h
    simp only [exceptBind_ok]
    cases hb : parseBlocks rest with
    | error e => rfl
    | ok blocks =>
      rw [hb] at hmid
      simp only [exceptBind_ok]
      cases hgs : groupSpectra blocks with
      | error e => rfl
      | ok gs =>
        simp only [exceptBind_ok]
        have hall : blocks.all (fun b =>
            checkExternalChannel b.1 || (hmHasKey b.1 "Region" && hmHasKey b.1 "Group")) = true := hmid
        have hP : ∀ b ∈ blocks, blockHasRG b := by
          intro b hb2 hext
          have hbp := (List.all_eq_true.mp hall) b hb2
          rw [hext] at hbp
          simp at hbp
          exact ⟨hbp.1, hbp.2⟩
        have hQ : ∀ g ∈ gs, ∀ ch ∈ g, chanHasRG ch :=
          groupSpectraGo_preserve blocks hP [] (by simp) gs hgs
        have hpw := putGroupsIntoClasses_pairwise gh gs hQ s₁ s₂
        cases hh1 : putGroupsIntoClasses gh s₁ gs with
        | error e =>
          rw [hh1] at hpw
          cases hh2 : putGroupsIntoClasses gh s₂ gs with
          | error e2 => rw [hh2] at hpw; simp only [Except.map] at hpw; cases hpw; rfl
          | ok q2 => rw [hh2] at hpw; simp [Except.map] at hpw
        | ok q1 =>
          rcases q1 with ⟨mrecs, sf₁⟩
          rw [hh1] at hpw
          cases hh2 : putGroupsIntoClasses gh s₂ gs with
          | error e2 => rw [hh2] at hpw; simp [Except.map] at hpw
          | ok q2 =>
            rcases q2 with ⟨mrecs2, sf₂⟩
            rw [hh2] at hpw
            simp only [Except.map] at hpw
            have hq := Except.ok.inj hpw
            subst hq
            simp only [exceptBind_ok]
            exact parseXYTail_map_fst mrecs sf₁ sf₂

/-- Witness for the amended C9: a file whose primary block has both Region
and Group parses to the same records from a stale state and from a fresh
one. -/
theorem c9_amended_witness :
    primariesHaveRegionAndGroup c1CexLines = true ∧
    (parseXY c9PriorState c1CexLines).map Prod.fst =
      (parseXY freshPState c1CexLines).map Prod.fst :=
  ⟨by decide, c9_amended c1CexLines c9PriorState freshPState (by decide)⟩

end XPS
